import Mathlib

/-!
Verification of the scan orchestration algorithm in `src/strategy.rs`
(askalono's `ScanStrategy::scan`).

Shallow embedding conventions:
* Texts, match-data tokens and engine errors are opaque to the orchestrator,
  so they are modelled as `Nat` identifiers.
* `f32` scores are modelled as `ℚ`; the orchestrator only compares them.
* The similarity engine (`Store::analyze`, `TextData::optimize_bounds`,
  `TextData::lines_view`, `TextData::white_out`) is an external collaborator;
  it is modelled as a structure of pure functions, matching the determinism
  stated in the spec.
* `scan` can end in three ways: a `ScanResult`, a propagated engine error
  (the `?` operator), or a panic (the `.expect` on `white_out`); the
  `Outcome` type makes all three explicit.
-/

namespace Askalono

/-- The `LicenseType` enum from `license.rs` (opaque classification tag). -/
inductive LicenseType where
  | original
  | header
  | alternate
deriving DecidableEq, Repr

/-- Opaque text value (`TextData`). -/
abbrev Text := Nat

/-- Opaque match-data token (`analysis.data`). -/
abbrev MatchData := Nat

/-- Opaque engine error (`failure::Error`). -/
abbrev Err := Nat

/-- Result of `Store::analyze`: score, name, license type and the opaque
match-data token used later for localization. -/
structure Analysis where
  score : ℚ
  name : String
  license_type : LicenseType
  data : MatchData
deriving DecidableEq, Repr

/-- The external similarity engine: `Store::analyze` plus the `TextData`
operations the orchestrator invokes. -/
structure Engine where
  analyze : Text → Except Err Analysis
  optimize_bounds : Text → MatchData → Text × ℚ
  lines_view : Text → Nat × Nat
  white_out : Text → Option Text

/-- The `IdentifiedLicense` record from `strategy.rs`. -/
structure IdentifiedLicense where
  name : String
  kind : LicenseType
deriving DecidableEq, Repr

/-- The `ContainedResult` record from `strategy.rs`. -/
structure ContainedResult where
  score : ℚ
  license : IdentifiedLicense
  line_range : Nat × Nat
deriving DecidableEq, Repr

/-- The `ScanResult` record from `strategy.rs`. -/
structure ScanResult where
  score : ℚ
  license : Option IdentifiedLicense
  containing : List ContainedResult
deriving DecidableEq, Repr

/-- How a call can end: a value, a propagated engine error, or a panic
(the `.expect` in the masking step). -/
inductive Outcome (α : Type) where
  | ok (val : α)
  | err (e : Err)
  | panic
deriving DecidableEq, Repr

/-- The `ScanStrategy` configuration bound to an engine. `max_passes` is `u16`
in the source; it is modelled as `Nat`. -/
structure ScanStrategy where
  store : Engine
  confidence_threshold : ℚ
  shallow_limit : ℚ
  optimize : Bool
  max_passes : Nat

/-- Constructor `ScanStrategy::new`: binds the store and sets the defaults
(threshold 0.8, shallow limit 0.99, optimize off, 10 passes). -/
def ScanStrategy.new (store : Engine) : ScanStrategy :=
  ⟨store, 8/10, 99/100, false, 10⟩

/-- Fluent setter for `confidence_threshold`. -/
def ScanStrategy.with_confidence_threshold (s : ScanStrategy) (x : ℚ) : ScanStrategy :=
  ⟨s.store, x, s.shallow_limit, s.optimize, s.max_passes⟩

/-- Fluent setter for `shallow_limit`. -/
def ScanStrategy.with_shallow_limit (s : ScanStrategy) (x : ℚ) : ScanStrategy :=
  ⟨s.store, s.confidence_threshold, x, s.optimize, s.max_passes⟩

/-- Fluent setter for `optimize`. -/
def ScanStrategy.with_optimize (s : ScanStrategy) (b : Bool) : ScanStrategy :=
  ⟨s.store, s.confidence_threshold, s.shallow_limit, b, s.max_passes⟩

/-- Fluent setter for `max_passes`. -/
def ScanStrategy.with_max_passes (s : ScanStrategy) (n : Nat) : ScanStrategy :=
  ⟨s.store, s.confidence_threshold, s.shallow_limit, s.optimize, n⟩

/-- The optimization loop of `scan` (`for _n in 0..self.max_passes`), with
the remaining pass budget as fuel. Each iteration: localize via
`optimize_bounds`; break if the localized score is below the threshold;
otherwise record a `ContainedResult` (identity taken from the current
`analysis`), white-out the localized view (panic if that fails), re-analyze
the masked text (propagating an engine error), and recurse. -/
def scanLoop (s : ScanStrategy) :
    Nat → Analysis → Text → List ContainedResult → Outcome (List ContainedResult)
  | 0, _, _, containing => Outcome.ok containing
  | n + 1, analysis, current_text, containing =>
    if (s.store.optimize_bounds current_text analysis.data).2 < s.confidence_threshold then
      Outcome.ok containing
    else
      match s.store.white_out (s.store.optimize_bounds current_text analysis.data).1 with
      | none => Outcome.panic
      | some next_text =>
        match s.store.analyze next_text with
        | Except.error e => Outcome.err e
        | Except.ok next_analysis =>
          scanLoop s n next_analysis next_text
            (containing ++
              [⟨(s.store.optimize_bounds current_text analysis.data).2,
                ⟨analysis.name, analysis.license_type⟩,
                s.store.lines_view (s.store.optimize_bounds current_text analysis.data).1⟩])

/-- The tail of `scan` after the confidence/shallow branch: run the
optimization loop when `optimize` is set, then assemble the `ScanResult`
from the first classification's score and license decision. -/
def scanTail (s : ScanStrategy) (text : Text) (analysis : Analysis)
    (license : Option IdentifiedLicense) : Outcome ScanResult :=
  if s.optimize then
    match scanLoop s s.max_passes analysis text [] with
    | Outcome.ok containing => Outcome.ok ⟨analysis.score, license, containing⟩
    | Outcome.err e => Outcome.err e
    | Outcome.panic => Outcome.panic
  else
    Outcome.ok ⟨analysis.score, license, []⟩

/-- Method `ScanStrategy::scan`: whole-document classification, confidence and
shallow-limit decisions, then the optional optimization loop. -/
def ScanStrategy.scan (s : ScanStrategy) (text : Text) : Outcome ScanResult :=
  match s.store.analyze text with
  | Except.error e => Outcome.err e
  | Except.ok analysis =>
    if analysis.score > s.confidence_threshold then
      if analysis.score > s.shallow_limit then
        Outcome.ok ⟨analysis.score, some ⟨analysis.name, analysis.license_type⟩, []⟩
      else
        scanTail s text analysis (some ⟨analysis.name, analysis.license_type⟩)
    else
      scanTail s text analysis none

/-! Helper lemmas about the optimization loop and the scan wrapper. -/

/-- A successful loop run extends the accumulator by at most one entry per
unit of fuel. -/
theorem scanLoop_ok_length {s : ScanStrategy} :
    ∀ (fuel : Nat) (a : Analysis) (txt : Text) (acc l : List ContainedResult),
      scanLoop s fuel a txt acc = Outcome.ok l → l.length ≤ acc.length + fuel := by
  intro fuel
  induction fuel with
  | zero =>
    intro a txt acc l h
    simp only [scanLoop, Outcome.ok.injEq] at h
    subst h
    exact Nat.le_add_right _ _
  | succ n ih =>
    intro a txt acc l h
    simp only [scanLoop] at h
    by_cases hlt : (s.store.optimize_bounds txt a.data).2 < s.confidence_threshold
    · rw [if_pos hlt] at h
      simp only [Outcome.ok.injEq] at h
      subst h
      exact Nat.le_add_right _ _
    · rw [if_neg hlt] at h
      cases hw : s.store.white_out (s.store.optimize_bounds txt a.data).1 with
      | none => rw [hw] at h; cases h
      | some t2 =>
        rw [hw] at h
        dsimp only at h
        cases han : s.store.analyze t2 with
        | error e => rw [han] at h; cases h
        | ok a2 =>
          rw [han] at h
          dsimp only at h
          have hlen := ih a2 t2 _ l h
          simp only [List.length_append, List.length_singleton] at hlen
          omega

/-- A successful loop run never shrinks the accumulator. -/
theorem scanLoop_ok_acc_le {s : ScanStrategy} :
    ∀ (fuel : Nat) (a : Analysis) (txt : Text) (acc l : List ContainedResult),
      scanLoop s fuel a txt acc = Outcome.ok l → acc.length ≤ l.length := by
  intro fuel
  induction fuel with
  | zero =>
    intro a txt acc l h
    simp only [scanLoop, Outcome.ok.injEq] at h
    subst h
    exact Nat.le_refl _
  | succ n ih =>
    intro a txt acc l h
    simp only [scanLoop] at h
    by_cases hlt : (s.store.optimize_bounds txt a.data).2 < s.confidence_threshold
    · rw [if_pos hlt] at h
      simp only [Outcome.ok.injEq] at h
      subst h
      exact Nat.le_refl _
    · rw [if_neg hlt] at h
      cases hw : s.store.white_out (s.store.optimize_bounds txt a.data).1 with
      | none => rw [hw] at h; cases h
      | some t2 =>
        rw [hw] at h
        dsimp only at h
        cases han : s.store.analyze t2 with
        | error e => rw [han] at h; cases h
        | ok a2 =>
          rw [han] at h
          dsimp only at h
          have hlen := ih a2 t2 _ l h
          simp only [List.length_append, List.length_singleton] at hlen
          omega

/-- Loop invariant: every entry of a successful loop result scores at least
the confidence threshold, provided the accumulator already does. -/
theorem scanLoop_ok_score {s : ScanStrategy} :
    ∀ (fuel : Nat) (a : Analysis) (txt : Text) (acc l : List ContainedResult),
      scanLoop s fuel a txt acc = Outcome.ok l →
      (∀ c ∈ acc, s.confidence_threshold ≤ c.score) →
      ∀ c ∈ l, s.confidence_threshold ≤ c.score := by
  intro fuel
  induction fuel with
  | zero =>
    intro a txt acc l h hacc
    simp only [scanLoop, Outcome.ok.injEq] at h
    subst h
    exact hacc
  | succ n ih =>
    intro a txt acc l h hacc
    simp only [scanLoop] at h
    by_cases hlt : (s.store.optimize_bounds txt a.data).2 < s.confidence_threshold
    · rw [if_pos hlt] at h
      simp only [Outcome.ok.injEq] at h
      subst h
      exact hacc
    · rw [if_neg hlt] at h
      cases hw : s.store.white_out (s.store.optimize_bounds txt a.data).1 with
      | none => rw [hw] at h; cases h
      | some t2 =>
        rw [hw] at h
        dsimp only at h
        cases han : s.store.analyze t2 with
        | error e => rw [han] at h; cases h
        | ok a2 =>
          rw [han] at h
          dsimp only at h
          refine ih a2 t2 _ l h ?_
          intro c hc
          rcases List.mem_append.mp hc with hc | hc
          · exact hacc c hc
          · rcases List.mem_singleton.mp hc with rfl
            exact le_of_not_lt hlt

/-- With the same strategy and start state, a larger fuel budget yields a
successful result at least as long. -/
theorem scanLoop_mono {s : ScanStrategy} :
    ∀ (f1 f2 : Nat), f1 ≤ f2 →
      ∀ (a : Analysis) (txt : Text) (acc l1 l2 : List ContainedResult),
        scanLoop s f1 a txt acc = Outcome.ok l1 →
        scanLoop s f2 a txt acc = Outcome.ok l2 → l1.length ≤ l2.length := by
  intro f1
  induction f1 with
  | zero =>
    intro f2 _ a txt acc l1 l2 h1 h2
    simp only [scanLoop, Outcome.ok.injEq] at h1
    subst h1
    exact scanLoop_ok_acc_le f2 a txt acc l2 h2
  | succ n ih =>
    intro f2 hle a txt acc l1 l2 h1 h2
    cases f2 with
    | zero => exact absurd hle (by omega)
    | succ m =>
      simp only [scanLoop] at h1 h2
      by_cases hlt : (s.store.optimize_bounds txt a.data).2 < s.confidence_threshold
      · rw [if_pos hlt] at h1 h2
        simp only [Outcome.ok.injEq] at h1 h2
        subst h1; subst h2
        exact Nat.le_refl _
      · rw [if_neg hlt] at h1 h2
        cases hw : s.store.white_out (s.store.optimize_bounds txt a.data).1 with
        | none => rw [hw] at h1; cases h1
        | some t2 =>
          rw [hw] at h1 h2
          dsimp only at h1 h2
          cases han : s.store.analyze t2 with
          | error e => rw [han] at h1; cases h1
          | ok a2 =>
            rw [han] at h1 h2
            dsimp only at h1 h2
            exact ih m (Nat.succ_le_succ_iff.mp hle) a2 t2 _ l1 l2 h1 h2

/-- The loop only reads the store and the confidence threshold, so changing
the configured `max_passes` field does not change a loop run with the same
fuel. -/
theorem scanLoop_with_max_passes (s : ScanStrategy) (m : Nat) :
    ∀ (fuel : Nat) (a : Analysis) (txt : Text) (acc : List ContainedResult),
      scanLoop (s.with_max_passes m) fuel a txt acc = scanLoop s fuel a txt acc := by
  intro fuel
  induction fuel with
  | zero => intro a txt acc; rfl
  | succ n ih =>
    intro a txt acc
    simp only [scanLoop, ScanStrategy.with_max_passes]
    by_cases hlt : (s.store.optimize_bounds txt a.data).2 < s.confidence_threshold
    · rw [if_pos hlt, if_pos hlt]
    · rw [if_neg hlt, if_neg hlt]
      cases hw : s.store.white_out (s.store.optimize_bounds txt a.data).1 with
      | none => rfl
      | some t2 =>
        dsimp only
        cases han : s.store.analyze t2 with
        | error e => rfl
        | ok a2 =>
          dsimp only
          exact ih a2 t2 _

/-- Inversion for `scanTail`: a successful tail keeps the first analysis'
score and license decision, and its `containing` is either empty or a
successful run of the optimization loop from the empty accumulator. -/
theorem scanTail_ok {s : ScanStrategy} {t : Text} {a : Analysis}
    {lic : Option IdentifiedLicense} {r : ScanResult}
    (h : scanTail s t a lic = Outcome.ok r) :
    r.score = a.score ∧ r.license = lic ∧
      (r.containing = [] ∨ scanLoop s s.max_passes a t [] = Outcome.ok r.containing) := by
  unfold scanTail at h
  by_cases hop : s.optimize = true
  · rw [if_pos hop] at h
    cases hl : scanLoop s s.max_passes a t [] with
    | ok l =>
      rw [hl] at h
      dsimp only at h
      cases h
      exact ⟨rfl, rfl, Or.inr rfl⟩
    | err e => rw [hl] at h; cases h
    | panic => rw [hl] at h; cases h
  · rw [if_neg hop] at h
    cases h
    exact ⟨rfl, rfl, Or.inl rfl⟩

/-- Inversion for `scan`: a successful scan reports the first analysis'
score, decides the license by the strict threshold comparison on that score,
and fills `containing` either trivially or from the optimization loop. -/
theorem scan_ok_spec {s : ScanStrategy} {t : Text} {r : ScanResult} {a : Analysis}
    (ha : s.store.analyze t = Except.ok a) (hr : s.scan t = Outcome.ok r) :
    r.score = a.score ∧
    r.license =
      (if a.score > s.confidence_threshold then some ⟨a.name, a.license_type⟩ else none) ∧
    (r.containing = [] ∨ scanLoop s s.max_passes a t [] = Outcome.ok r.containing) := by
  unfold ScanStrategy.scan at hr
  rw [ha] at hr
  dsimp only at hr
  by_cases h1 : a.score > s.confidence_threshold
  · rw [if_pos h1] at hr
    by_cases h2 : a.score > s.shallow_limit
    · rw [if_pos h2] at hr
      cases hr
      exact ⟨rfl, by rw [if_pos h1], Or.inl rfl⟩
    · rw [if_neg h2] at hr
      obtain ⟨hs, hl, hc⟩ := scanTail_ok hr
      exact ⟨hs, by rw [if_pos h1]; exact hl, hc⟩
  · rw [if_neg h1] at hr
    obtain ⟨hs, hl, hc⟩ := scanTail_ok hr
    exact ⟨hs, by rw [if_neg h1]; exact hl, hc⟩

/-- A successful scan presupposes a successful first classification. -/
theorem scan_ok_analyze {s : ScanStrategy} {t : Text} {r : ScanResult}
    (hr : s.scan t = Outcome.ok r) :
    ∃ a, s.store.analyze t = Except.ok a := by
  unfold ScanStrategy.scan at hr
  cases ha : s.store.analyze t with
  | error e => rw [ha] at hr; cases hr
  | ok a => exact ⟨a, rfl⟩

/-- Updating `with_max_passes` leaves the bound store unchanged. -/
theorem with_max_passes_store (s : ScanStrategy) (m : Nat) :
    (s.with_max_passes m).store = s.store := rfl

/-- Updating `with_max_passes` leaves the confidence threshold unchanged. -/
theorem with_max_passes_threshold (s : ScanStrategy) (m : Nat) :
    (s.with_max_passes m).confidence_threshold = s.confidence_threshold := rfl

/-- Updating `with_max_passes` leaves the shallow limit unchanged. -/
theorem with_max_passes_shallow (s : ScanStrategy) (m : Nat) :
    (s.with_max_passes m).shallow_limit = s.shallow_limit := rfl

/-- Updating `with_max_passes` leaves the optimize flag unchanged. -/
theorem with_max_passes_optimize (s : ScanStrategy) (m : Nat) :
    (s.with_max_passes m).optimize = s.optimize := rfl

/-- Updating `with_max_passes` sets the pass budget. -/
theorem with_max_passes_max (s : ScanStrategy) (m : Nat) :
    (s.with_max_passes m).max_passes = m := rfl

/-- When the engine's white-out succeeds on every localized view with a
score meeting the threshold, the loop never panics. -/
theorem scanLoop_no_panic {s : ScanStrategy}
    (hmask : ∀ (txt : Text) (d : MatchData) (v : Text) (sc : ℚ),
      s.store.optimize_bounds txt d = (v, sc) → ¬ sc < s.confidence_threshold →
      s.store.white_out v ≠ none) :
    ∀ (fuel : Nat) (a : Analysis) (txt : Text) (acc : List ContainedResult),
      scanLoop s fuel a txt acc ≠ Outcome.panic := by
  intro fuel
  induction fuel with
  | zero =>
    intro a txt acc h
    simp only [scanLoop] at h
    exact Outcome.noConfusion h
  | succ n ih =>
    intro a txt acc h
    simp only [scanLoop] at h
    by_cases hlt : (s.store.optimize_bounds txt a.data).2 < s.confidence_threshold
    · rw [if_pos hlt] at h
      exact Outcome.noConfusion h
    · rw [if_neg hlt] at h
      cases hw : s.store.white_out (s.store.optimize_bounds txt a.data).1 with
      | none => exact hmask txt a.data _ _ rfl hlt hw
      | some t2 =>
        rw [hw] at h
        dsimp only at h
        cases han : s.store.analyze t2 with
        | error e =>
          rw [han] at h
          dsimp only at h
          exact Outcome.noConfusion h
        | ok a2 =>
          rw [han] at h
          dsimp only at h
          exact ih a2 t2 _ h

/-- When the engine's white-out succeeds on every qualifying localized view,
the tail never panics. -/
theorem scanTail_no_panic {s : ScanStrategy} {t : Text} {a : Analysis}
    {lic : Option IdentifiedLicense}
    (hmask : ∀ (txt : Text) (d : MatchData) (v : Text) (sc : ℚ),
      s.store.optimize_bounds txt d = (v, sc) → ¬ sc < s.confidence_threshold →
      s.store.white_out v ≠ none)
    (h : scanTail s t a lic = Outcome.panic) : False := by
  unfold scanTail at h
  by_cases hop : s.optimize = true
  · rw [if_pos hop] at h
    cases hl : scanLoop s s.max_passes a t [] with
    | ok l => rw [hl] at h; cases h
    | err e => rw [hl] at h; cases h
    | panic => exact scanLoop_no_panic hmask s.max_passes a t [] hl
  · rw [if_neg hop] at h
    cases h

/-! Concrete engines and strategies used as witnesses and counterexamples. -/

/-- Engine whose whole-document classification always matches strongly
(score 0.9) and whose white-out always succeeds. -/
def engineW : Engine :=
  ⟨fun _ => Except.ok ⟨9/10, "MIT", LicenseType.original, 0⟩,
   fun t _ => (t + 100, 0),
   fun v => (v, v),
   fun t => some (t + 1)⟩

/-- Strategy with default configuration over `engineW`. -/
def sW : ScanStrategy := ScanStrategy.new engineW

/-- Engine whose classification always fails with error 7. -/
def engineErr : Engine :=
  ⟨fun _ => Except.error 7,
   fun t _ => (t + 100, 0),
   fun v => (v, v),
   fun t => some (t + 1)⟩

/-- Strategy over the always-failing engine. -/
def sErr : ScanStrategy := ScanStrategy.new engineErr

/-- Engine producing a localized score exactly equal to 1/2 on the original
text, then nothing on the masked remainder. -/
def engineC2 : Engine :=
  ⟨fun t => if t = 0 then Except.ok ⟨3/10, "A", LicenseType.original, 0⟩
            else Except.ok ⟨0, "Z", LicenseType.original, 1⟩,
   fun t _ => if t = 0 then (100, 1/2) else (101, 0),
   fun v => (v, v),
   fun _ => some 1⟩

/-- Threshold exactly 1/2, optimization on, over `engineC2`. -/
def sC2 : ScanStrategy :=
  ((ScanStrategy.new engineC2).with_confidence_threshold (1/2)).with_optimize true

/-- Engine: whole-document score 1/2, one embedded match of score 9/10,
nothing afterwards. -/
def engineC3 : Engine :=
  ⟨fun t => if t = 0 then Except.ok ⟨1/2, "A", LicenseType.original, 0⟩
            else Except.ok ⟨0, "Z", LicenseType.original, 1⟩,
   fun t _ => if t = 0 then (100, 9/10) else (101, 0),
   fun v => (v, v),
   fun _ => some 1⟩

/-- Default threshold 8/10 but shallow limit lowered to 1/10, optimization
on, over `engineC3`. -/
def sC3 : ScanStrategy :=
  ((ScanStrategy.new engineC3).with_shallow_limit (1/10)).with_optimize true

/-- Engine: two successful localize/mask iterations, then the
re-classification of the twice-masked text fails with error 7. -/
def engineC8 : Engine :=
  ⟨fun t => if t = 0 then Except.ok ⟨3/10, "A", LicenseType.original, 0⟩
            else if t = 1 then Except.ok ⟨3/10, "B", LicenseType.original, 1⟩
            else Except.error 7,
   fun t _ => (100 + t, 9/10),
   fun v => (v, v),
   fun v => some (v - 99)⟩

/-- Threshold 1/2, optimization on, over `engineC8`. -/
def sC8 : ScanStrategy :=
  ((ScanStrategy.new engineC8).with_confidence_threshold (1/2)).with_optimize true

/-- The analysis `engineC8` returns for the once-masked text `1`. -/
def aC8 : Analysis := ⟨3/10, "B", LicenseType.original, 1⟩

/-- The `ContainedResult` recorded by the first loop iteration over
`engineC8`. -/
def cC8 : ContainedResult := ⟨9/10, ⟨"A", LicenseType.original⟩, (100, 100)⟩

/-- Engine whose white-out always fails (breaking the mask contract). -/
def engineMaskFail : Engine :=
  ⟨fun _ => Except.ok ⟨3/10, "A", LicenseType.original, 0⟩,
   fun t _ => (t + 100, 9/10),
   fun v => (v, v),
   fun _ => none⟩

/-- Threshold 1/2, optimization on, over the contract-breaking engine. -/
def sMF : ScanStrategy :=
  ((ScanStrategy.new engineMaskFail).with_confidence_threshold (1/2)).with_optimize true

/-- Engine with a perfect (score 1) whole-document match. -/
def engineShallow : Engine :=
  ⟨fun _ => Except.ok ⟨1, "X", LicenseType.original, 0⟩,
   fun t _ => (t + 100, 1),
   fun v => (v, v),
   fun t => some (t + 1)⟩

/-- Optimization on, default limits, over `engineShallow`. -/
def sSh : ScanStrategy := (ScanStrategy.new engineShallow).with_optimize true

/-- The analysis `engineW` returns for every text. -/
def aW : Analysis := ⟨9/10, "MIT", LicenseType.original, 0⟩

/-- The result of `sW.scan 0`. -/
def rW : ScanResult := ⟨9/10, some ⟨"MIT", LicenseType.original⟩, []⟩

/-- The `ContainedResult` recorded by the single loop iteration over
`engineC3`. -/
def cC3 : ContainedResult := ⟨9/10, ⟨"A", LicenseType.original⟩, (100, 100)⟩

/-- The result of `sC3.scan 0`. -/
def rC3 : ScanResult := ⟨1/2, none, [cC3]⟩

/-- The analysis `engineShallow` returns for every text. -/
def aSh : Analysis := ⟨1, "X", LicenseType.original, 0⟩

/-- The result of `sSh.scan 0` (shallow exit). -/
def rSh : ScanResult := ⟨1, some ⟨"X", LicenseType.original⟩, []⟩

/-- The analysis `engineC8` returns for the original text `0`. -/
def aC8zero : Analysis := ⟨3/10, "A", LicenseType.original, 0⟩

/-- The analysis `engineMaskFail` returns for every text. -/
def aMF : Analysis := ⟨3/10, "A", LicenseType.original, 0⟩

/-! The claims. -/

/-- C1: when `scan` returns successfully, `ScanResult.license` is `Some` iff
the score of the first whole-document classification strictly exceeds
`confidence_threshold`, and when it is `Some` it carries the name and kind
from that first classification. -/
theorem scan_license_iff_first_score (s : ScanStrategy) (t : Text) (r : ScanResult)
    (a : Analysis) (ha : s.store.analyze t = Except.ok a) (hr : s.scan t = Outcome.ok r) :
    (r.license.isSome ↔ a.score > s.confidence_threshold) ∧
    r.license =
      (if a.score > s.confidence_threshold then some ⟨a.name, a.license_type⟩ else none) := by
  obtain ⟨-, hl, -⟩ := scan_ok_spec ha hr
  refine ⟨?_, hl⟩
  by_cases h1 : a.score > s.confidence_threshold
  · rw [hl, if_pos h1]
    simp [h1]
  · rw [hl, if_neg h1]
    simp [h1]

/-- Witness for C1: concrete engine with first score 9/10 against the
default threshold 8/10. -/
theorem scan_license_iff_first_score_witness :
    (rW.license.isSome ↔ aW.score > sW.confidence_threshold) ∧
    rW.license =
      (if aW.score > sW.confidence_threshold then some ⟨aW.name, aW.license_type⟩ else none) :=
  scan_license_iff_first_score sW 0 rW aW
    (by norm_num [sW, ScanStrategy.new, engineW, aW])
    (by norm_num [ScanStrategy.scan, scanTail, scanLoop, sW, engineW, ScanStrategy.new, rW])

/-- C2 counterexample: with the threshold at exactly 1/2 the loop records an
entry whose score equals the threshold, so a recorded score need not be
strictly greater than `confidence_threshold`. -/
theorem contained_score_not_strict_cex :
    sC2.scan 0 =
      Outcome.ok ⟨3/10, none, [⟨1/2, ⟨"A", LicenseType.original⟩, (100, 100)⟩]⟩ ∧
    ¬ ((1/2 : ℚ) > sC2.confidence_threshold) := by
  constructor
  · norm_num [ScanStrategy.scan, scanTail, scanLoop, sC2, engineC2, ScanStrategy.new,
      ScanStrategy.with_confidence_threshold, ScanStrategy.with_optimize]
  · norm_num [sC2, ScanStrategy.new, engineC2, ScanStrategy.with_confidence_threshold,
      ScanStrategy.with_optimize]

/-- C2 amended: every `ContainedResult` that `scan` places in `containing`
has a score greater than or equal to `confidence_threshold`; the loop never
records an entry with a score strictly below the threshold. -/
theorem contained_scores_ge_threshold (s : ScanStrategy) (t : Text) (r : ScanResult)
    (c : ContainedResult) (hr : s.scan t = Outcome.ok r) (hc : c ∈ r.containing) :
    s.confidence_threshold ≤ c.score := by
  obtain ⟨a, ha⟩ := scan_ok_analyze hr
  obtain ⟨-, -, hcont⟩ := scan_ok_spec ha hr
  rcases hcont with hnil | hloop
  · rw [hnil] at hc
    cases hc
  · exact scanLoop_ok_score s.max_passes a t [] r.containing hloop (by simp) c hc

/-- Witness for the amended C2: the entry recorded over `engineC3` scores
9/10 against the threshold 8/10. -/
theorem contained_scores_ge_threshold_witness :
    sC3.confidence_threshold ≤ cC3.score :=
  contained_scores_ge_threshold sC3 0 rC3 cC3
    (by norm_num [ScanStrategy.scan, scanTail, scanLoop, sC3, engineC3, ScanStrategy.new,
      ScanStrategy.with_shallow_limit, ScanStrategy.with_optimize, rC3, cC3])
    (by simp [rC3])

/-- C3 counterexample: a first score of 1/2 exceeds the configured shallow
limit 1/10 but not the confidence threshold 8/10, so the shallow exit is
skipped and the optimization loop still records an entry: `containing` is
not empty although the whole-document score exceeds `shallow_limit`. -/
theorem shallow_limit_not_sufficient_cex :
    engineC3.analyze 0 = Except.ok ⟨1/2, "A", LicenseType.original, 0⟩ ∧
    (1/2 : ℚ) > sC3.shallow_limit ∧
    sC3.scan 0 = Outcome.ok rC3 ∧
    rC3.containing ≠ [] := by
  refine ⟨by norm_num [engineC3], ?_, ?_, by simp [rC3]⟩
  · norm_num [sC3, ScanStrategy.new, engineC3, ScanStrategy.with_shallow_limit,
      ScanStrategy.with_optimize]
  · norm_num [ScanStrategy.scan, scanTail, scanLoop, sC3, engineC3, ScanStrategy.new,
      ScanStrategy.with_shallow_limit, ScanStrategy.with_optimize, rC3, cC3]

/-- C3 amended: if the first whole-document score exceeds both
`confidence_threshold` and `shallow_limit`, the returned `containing` is
empty, regardless of `optimize`. (The shallow exit sits inside the
confidence branch, so it only fires when the threshold is also cleared.) -/
theorem shallow_exit_containing_empty (s : ScanStrategy) (t : Text) (r : ScanResult)
    (a : Analysis) (ha : s.store.analyze t = Except.ok a) (hr : s.scan t = Outcome.ok r)
    (h1 : a.score > s.confidence_threshold) (h2 : a.score > s.shallow_limit) :
    r.containing = [] := by
  unfold ScanStrategy.scan at hr
  rw [ha] at hr
  dsimp only at hr
  rw [if_pos h1, if_pos h2] at hr
  cases hr
  rfl

/-- Witness for the amended C3: a perfect score 1 clears both limits and the
scan returns with empty `containing` even though `optimize` is on. -/
theorem shallow_exit_containing_empty_witness : rSh.containing = [] :=
  shallow_exit_containing_empty sSh 0 rSh aSh
    (by norm_num [sSh, ScanStrategy.new, engineShallow, ScanStrategy.with_optimize, aSh])
    (by norm_num [ScanStrategy.scan, scanTail, scanLoop, sSh, engineShallow,
      ScanStrategy.new, ScanStrategy.with_optimize, rSh])
    (by norm_num [sSh, ScanStrategy.new, engineShallow, ScanStrategy.with_optimize, aSh])
    (by norm_num [sSh, ScanStrategy.new, engineShallow, ScanStrategy.with_optimize, aSh])

/-- C4: for every input text and configuration (any `max_passes`, including
0), a successful scan returns at most `max_passes` entries in `containing`:
the loop runs at most `max_passes` iterations and appends at most one entry
per iteration. -/
theorem containing_length_le_max_passes (s : ScanStrategy) (t : Text) (r : ScanResult)
    (hr : s.scan t = Outcome.ok r) : r.containing.length ≤ s.max_passes := by
  obtain ⟨a, ha⟩ := scan_ok_analyze hr
  obtain ⟨-, -, hcont⟩ := scan_ok_spec ha hr
  rcases hcont with hnil | hloop
  · rw [hnil]
    exact Nat.zero_le _
  · have hlen := scanLoop_ok_length s.max_passes a t [] r.containing hloop
    simpa using hlen

/-- Witness for C4: the scan over `engineC3` records one entry against a
budget of 10 passes. -/
theorem containing_length_le_max_passes_witness :
    rC3.containing.length ≤ sC3.max_passes :=
  containing_length_le_max_passes sC3 0 rC3
    (by norm_num [ScanStrategy.scan, scanTail, scanLoop, sC3, engineC3, ScanStrategy.new,
      ScanStrategy.with_shallow_limit, ScanStrategy.with_optimize, rC3, cC3])

/-- C5: a successful scan reports as `score` the score of the first,
whole-document classification, and its `license` is either `None` or the
identity of that same first classification — never data from a
re-classification inside the loop. -/
theorem scan_score_from_first_classification (s : ScanStrategy) (t : Text) (r : ScanResult)
    (a : Analysis) (ha : s.store.analyze t = Except.ok a) (hr : s.scan t = Outcome.ok r) :
    r.score = a.score ∧
    (r.license = none ∨ r.license = some ⟨a.name, a.license_type⟩) := by
  obtain ⟨hs, hl, -⟩ := scan_ok_spec ha hr
  refine ⟨hs, ?_⟩
  by_cases h1 : a.score > s.confidence_threshold
  · right
    rw [hl, if_pos h1]
  · left
    rw [hl, if_neg h1]

/-- Witness for C5 at the concrete engine `engineW`. -/
theorem scan_score_from_first_classification_witness :
    rW.score = aW.score ∧
    (rW.license = none ∨ rW.license = some ⟨aW.name, aW.license_type⟩) :=
  scan_score_from_first_classification sW 0 rW aW
    (by norm_num [sW, ScanStrategy.new, engineW, aW])
    (by norm_num [ScanStrategy.scan, scanTail, scanLoop, sW, engineW, ScanStrategy.new, rW])

/-- C6: an iteration that records a `ContainedResult` takes the recorded
license name and kind from the analysis as it stood before that iteration's
re-classification; the re-classified analysis only feeds the next
iteration. -/
theorem loop_records_pre_reclassification_identity (s : ScanStrategy) (n : Nat)
    (a : Analysis) (txt : Text) (acc : List ContainedResult) (v : Text) (sc : ℚ)
    (txt2 : Text) (a2 : Analysis)
    (hob : s.store.optimize_bounds txt a.data = (v, sc))
    (hsc : ¬ sc < s.confidence_threshold)
    (hw : s.store.white_out v = some txt2)
    (han : s.store.analyze txt2 = Except.ok a2) :
    scanLoop s (n + 1) a txt acc =
      scanLoop s n a2 txt2
        (acc ++ [⟨sc, ⟨a.name, a.license_type⟩, s.store.lines_view v⟩]) := by
  simp only [scanLoop, hob, if_neg hsc, hw, han]

/-- Witness for C6: the first iteration over `engineC8` records the identity
of the original analysis (name A) and hands the re-classified analysis
(name B) to the next iteration. -/
theorem loop_records_pre_reclassification_identity_witness :
    scanLoop sC8 10 aC8zero 0 [] =
      scanLoop sC8 9 aC8 1
        ([] ++ [⟨9/10, ⟨aC8zero.name, aC8zero.license_type⟩, sC8.store.lines_view 100⟩]) :=
  loop_records_pre_reclassification_identity sC8 9 aC8zero 0 [] 100 (9/10) 1 aC8
    (by norm_num [sC8, ScanStrategy.new, engineC8, ScanStrategy.with_confidence_threshold,
      ScanStrategy.with_optimize, aC8zero])
    (by norm_num [sC8, ScanStrategy.new, engineC8, ScanStrategy.with_confidence_threshold,
      ScanStrategy.with_optimize])
    (by norm_num [sC8, ScanStrategy.new, engineC8, ScanStrategy.with_confidence_threshold,
      ScanStrategy.with_optimize])
    (by norm_num [sC8, ScanStrategy.new, engineC8, ScanStrategy.with_confidence_threshold,
      ScanStrategy.with_optimize, aC8])

/-- C7: a failing classification aborts the scan with exactly that error:
a step-1 failure makes `scan` return the error directly, and a failing
re-classification inside the loop makes the loop return the bare error,
which carries no `ScanResult` and none of the accumulated entries. -/
theorem scan_error_atomic (s : ScanStrategy) (t : Text) (e : Err) :
    (s.store.analyze t = Except.error e → s.scan t = Outcome.err e) ∧
    (∀ (n : Nat) (a : Analysis) (txt : Text) (acc : List ContainedResult)
        (v : Text) (sc : ℚ) (txt2 : Text),
      s.store.optimize_bounds txt a.data = (v, sc) →
      ¬ sc < s.confidence_threshold →
      s.store.white_out v = some txt2 →
      s.store.analyze txt2 = Except.error e →
      scanLoop s (n + 1) a txt acc = Outcome.err e) := by
  constructor
  · intro ha
    unfold ScanStrategy.scan
    rw [ha]
  · intro n a txt acc v sc txt2 hob hsc hw han
    simp only [scanLoop, hob, if_neg hsc, hw, han]

/-- Witness for C7: a step-1 failure over `engineErr` and a loop
re-classification failure over `engineC8`, both surfacing as error 7. -/
theorem scan_error_atomic_witness :
    sErr.scan 0 = Outcome.err 7 ∧ scanLoop sC8 9 aC8 1 [cC8] = Outcome.err 7 :=
  ⟨(scan_error_atomic sErr 0 7).1 (by norm_num [sErr, ScanStrategy.new, engineErr]),
   (scan_error_atomic sC8 0 7).2 8 aC8 1 [cC8] 101 (9/10) 2
     (by norm_num [sC8, ScanStrategy.new, engineC8, ScanStrategy.with_confidence_threshold,
       ScanStrategy.with_optimize, aC8])
     (by norm_num [sC8, ScanStrategy.new, engineC8, ScanStrategy.with_confidence_threshold,
       ScanStrategy.with_optimize])
     (by norm_num [sC8, ScanStrategy.new, engineC8, ScanStrategy.with_confidence_threshold,
       ScanStrategy.with_optimize])
     (by norm_num [sC8, ScanStrategy.new, engineC8, ScanStrategy.with_confidence_threshold,
       ScanStrategy.with_optimize])⟩

/-- C8 counterexample: over `engineC8` the first iteration appends an entry,
the second iteration's re-classification fails, and the whole scan returns
the bare error 7 — the entry appended in the earlier iteration is not
delivered, contradicting the claim that committed entries survive. -/
theorem loop_error_discards_committed_cex :
    scanLoop sC8 9 aC8 1 [cC8] = Outcome.err 7 ∧
    sC8.scan 0 = Outcome.err 7 ∧
    Outcome.err 7 ≠ Outcome.ok (⟨3/10, none, [cC8]⟩ : ScanResult) := by
  refine ⟨?_, ?_, by simp⟩
  · norm_num [scanLoop, sC8, engineC8, aC8, ScanStrategy.new,
      ScanStrategy.with_confidence_threshold, ScanStrategy.with_optimize]
  · norm_num [ScanStrategy.scan, scanTail, scanLoop, sC8, engineC8, ScanStrategy.new,
      ScanStrategy.with_confidence_threshold, ScanStrategy.with_optimize]

/-- C8 amended: when the re-classification in a loop iteration fails, scan
propagates the error and the whole call fails: the loop result is the bare
error whatever the accumulated entries were, so entries appended in earlier
iterations are discarded, not delivered. -/
theorem loop_error_discards_all_entries (s : ScanStrategy) (n : Nat) (a : Analysis)
    (txt : Text) (acc acc2 : List ContainedResult) (v : Text) (sc : ℚ) (txt2 : Text)
    (e : Err)
    (hob : s.store.optimize_bounds txt a.data = (v, sc))
    (hsc : ¬ sc < s.confidence_threshold)
    (hw : s.store.white_out v = some txt2)
    (han : s.store.analyze txt2 = Except.error e) :
    scanLoop s (n + 1) a txt acc = Outcome.err e ∧
    scanLoop s (n + 1) a txt acc2 = Outcome.err e := by
  constructor <;> simp only [scanLoop, hob, if_neg hsc, hw, han]

/-- Witness for the amended C8 over `engineC8`: both with an empty
accumulator and with one committed entry the loop collapses to error 7. -/
theorem loop_error_discards_all_entries_witness :
    scanLoop sC8 9 aC8 1 [] = Outcome.err 7 ∧
    scanLoop sC8 9 aC8 1 [cC8] = Outcome.err 7 :=
  loop_error_discards_all_entries sC8 8 aC8 1 [] [cC8] 101 (9/10) 2 7
    (by norm_num [sC8, ScanStrategy.new, engineC8, ScanStrategy.with_confidence_threshold,
      ScanStrategy.with_optimize, aC8])
    (by norm_num [sC8, ScanStrategy.new, engineC8, ScanStrategy.with_confidence_threshold,
      ScanStrategy.with_optimize])
    (by norm_num [sC8, ScanStrategy.new, engineC8, ScanStrategy.with_confidence_threshold,
      ScanStrategy.with_optimize])
    (by norm_num [sC8, ScanStrategy.new, engineC8, ScanStrategy.with_confidence_threshold,
      ScanStrategy.with_optimize])

/-- Monotonicity of the tail in the pass budget, all else fixed. -/
theorem scanTail_mono (s : ScanStrategy) (m1 m2 : Nat) (t : Text) (a : Analysis)
    (lic : Option IdentifiedLicense) (r1 r2 : ScanResult) (hm : m1 ≤ m2)
    (h1 : scanTail (s.with_max_passes m1) t a lic = Outcome.ok r1)
    (h2 : scanTail (s.with_max_passes m2) t a lic = Outcome.ok r2) :
    r1.containing.length ≤ r2.containing.length := by
  unfold scanTail at h1 h2
  simp only [with_max_passes_optimize, with_max_passes_max] at h1 h2
  rw [scanLoop_with_max_passes s m1] at h1
  rw [scanLoop_with_max_passes s m2] at h2
  by_cases hop : s.optimize = true
  · rw [if_pos hop] at h1 h2
    cases hl1 : scanLoop s m1 a t [] with
    | ok l1 =>
      rw [hl1] at h1
      dsimp only at h1
      cases h1
      cases hl2 : scanLoop s m2 a t [] with
      | ok l2 =>
        rw [hl2] at h2
        dsimp only at h2
        cases h2
        exact scanLoop_mono m1 m2 hm a t [] l1 l2 hl1 hl2
      | err e => rw [hl2] at h2; cases h2
      | panic => rw [hl2] at h2; cases h2
    | err e => rw [hl1] at h1; cases h1
    | panic => rw [hl1] at h1; cases h1
  · rw [if_neg hop] at h1 h2
    cases h1
    cases h2
    exact Nat.le_refl _

/-- C9: with the engine, text, thresholds and optimize flag fixed, raising
`max_passes` never makes a successful scan deliver fewer `containing`
entries. -/
theorem containing_monotone_in_max_passes (s : ScanStrategy) (m1 m2 : Nat) (t : Text)
    (r1 r2 : ScanResult) (hm : m1 ≤ m2)
    (h1 : (s.with_max_passes m1).scan t = Outcome.ok r1)
    (h2 : (s.with_max_passes m2).scan t = Outcome.ok r2) :
    r1.containing.length ≤ r2.containing.length := by
  unfold ScanStrategy.scan at h1 h2
  simp only [with_max_passes_store, with_max_passes_threshold, with_max_passes_shallow]
    at h1 h2
  cases ha : s.store.analyze t with
  | error e =>
    rw [ha] at h1
    cases h1
  | ok a =>
    rw [ha] at h1 h2
    dsimp only at h1 h2
    by_cases hc : a.score > s.confidence_threshold
    · rw [if_pos hc] at h1 h2
      by_cases hsh : a.score > s.shallow_limit
      · rw [if_pos hsh] at h1 h2
        cases h1
        cases h2
        exact Nat.le_refl _
      · rw [if_neg hsh] at h1 h2
        exact scanTail_mono s m1 m2 t a _ r1 r2 hm h1 h2
    · rw [if_neg hc] at h1 h2
      exact scanTail_mono s m1 m2 t a none r1 r2 hm h1 h2

/-- Witness for C9 with budgets 1 and 2 over `engineW`. -/
theorem containing_monotone_in_max_passes_witness :
    rW.containing.length ≤ rW.containing.length :=
  containing_monotone_in_max_passes sW 1 2 0 rW rW (by norm_num)
    (by norm_num [ScanStrategy.scan, scanTail, scanLoop, sW, engineW, ScanStrategy.new,
      ScanStrategy.with_max_passes, rW])
    (by norm_num [ScanStrategy.scan, scanTail, scanLoop, sW, engineW, ScanStrategy.new,
      ScanStrategy.with_max_passes, rW])

/-- C10: if the engine's white-out succeeds on every localized view whose
score meets the threshold, the panic branch of `scan` is unreachable; and
when white-out does fail on a qualifying view, the loop ends in the panic
outcome — never in the ordinary error outcome handed to callers. -/
theorem mask_contract_no_panic (s : ScanStrategy) (t : Text) :
    ((∀ (txt : Text) (d : MatchData) (v : Text) (sc : ℚ),
        s.store.optimize_bounds txt d = (v, sc) → ¬ sc < s.confidence_threshold →
        s.store.white_out v ≠ none) →
      s.scan t ≠ Outcome.panic) ∧
    (∀ (n : Nat) (a : Analysis) (txt : Text) (acc : List ContainedResult)
        (v : Text) (sc : ℚ),
      s.store.optimize_bounds txt a.data = (v, sc) →
      ¬ sc < s.confidence_threshold →
      s.store.white_out v = none →
      scanLoop s (n + 1) a txt acc = Outcome.panic) := by
  constructor
  · intro hmask h
    unfold ScanStrategy.scan at h
    cases ha : s.store.analyze t with
    | error e =>
      rw [ha] at h
      cases h
    | ok a =>
      rw [ha] at h
      dsimp only at h
      by_cases h1 : a.score > s.confidence_threshold
      · rw [if_pos h1] at h
        by_cases h2 : a.score > s.shallow_limit
        · rw [if_pos h2] at h
          cases h
        · rw [if_neg h2] at h
          exact scanTail_no_panic hmask h
      · rw [if_neg h1] at h
        exact scanTail_no_panic hmask h
  · intro n a txt acc v sc hob hsc hw
    simp only [scanLoop, hob, if_neg hsc, hw]

/-- Witness for C10: over `engineW` (total white-out) the scan cannot panic;
over `engineMaskFail` (white-out always fails) the loop panics. -/
theorem mask_contract_no_panic_witness :
    sW.scan 0 ≠ Outcome.panic ∧ scanLoop sMF 1 aMF 0 [] = Outcome.panic :=
  ⟨(mask_contract_no_panic sW 0).1
    (fun txt d v sc h1 h2 => by simp [sW, ScanStrategy.new, engineW]),
   (mask_contract_no_panic sMF 0).2 0 aMF 0 [] 100 (9/10)
     (by norm_num [sMF, ScanStrategy.new, engineMaskFail,
       ScanStrategy.with_confidence_threshold, ScanStrategy.with_optimize, aMF])
     (by norm_num [sMF, ScanStrategy.new, engineMaskFail,
       ScanStrategy.with_confidence_threshold, ScanStrategy.with_optimize])
     (by norm_num [sMF, ScanStrategy.new, engineMaskFail,
       ScanStrategy.with_confidence_threshold, ScanStrategy.with_optimize])⟩

end Askalono
